import Mathlib

/-!
Verification of the InvestSmart fund-price exporter (`main.py`, `config_schemas.py`).

This file gives a shallow embedding of the three core subsystems of the
program — the session/login flow (`try_login_bypass` / `main`), the
watchlist table extractor (`extract_fund_data` / `extract_apir_code`),
and the CSV merge/retention engine (`save_to_csv`) — and proves or
refutes the specification's claims about them.

Conventions of the embedding:
* Python strings are Lean `String`s; where character-level work is needed
  (substring search, trimming, lower-casing, date parsing) we operate on
  `List Char` via `String.toList`, mirroring Python's character semantics
  for the ASCII data the program handles.
* Python `datetime.date` values are a `Date` structure; `dayNumber` is the
  proleptic-Gregorian ordinal (identical to Python's `date.toordinal`), so
  date comparison and `timedelta` subtraction become integer arithmetic.
* Python exceptions that the code does not catch are `Except` errors;
  selenium driver faults that the code does catch per-row are modelled as
  explicit `Except DrvFault` outcomes supplied by the environment.
* File contents are modelled structurally: the CSV ledger is a header plus
  a list of rows (`csv` round-trips field strings exactly, so modelling
  the file as its parsed rows is faithful).
-/

namespace InvestSmart

/-! ## Character and string helpers (Python `in`, `.strip()`, `.lower()`) -/

/-- Does `pat` occur at the head of `l`?  (Helper for substring search.) -/
def subAt : List Char → List Char → Bool
  | [], _ => true
  | _ :: _, [] => false
  | a :: as, b :: bs => a == b && subAt as bs

/-- Does `pat` occur anywhere inside `l`?  Models Python's `pat in s`. -/
def hasSubList (pat : List Char) : List Char → Bool
  | [] => subAt pat []
  | b :: bs => subAt pat (b :: bs) || hasSubList pat bs

/-- Python `str.strip()` whitespace test (ASCII whitespace suffices here). -/
def isSpaceChar (c : Char) : Bool :=
  c == ' ' || c == '\t' || c == '\n' || c == '\r'

/-- Python `s.strip()` on a character list. -/
def trimChars (l : List Char) : List Char :=
  ((l.dropWhile isSpaceChar).reverse.dropWhile isSpaceChar).reverse

/-- Python `s.strip().lower()` as performed on header texts
(`header.text.strip().lower()`, main.py line 442). -/
def normHeader (s : String) : List Char :=
  (trimChars s.toList).map Char.toLower

/-! ## Dates (`datetime.date`, `strftime`, `strptime`) -/

/-- A calendar date as Python's `datetime.date` (year ≥ 1). -/
structure Date where
  year : Nat
  month : Nat
  day : Nat
deriving DecidableEq, Repr

/-- Gregorian leap-year rule. -/
def isLeap (y : Nat) : Bool :=
  (y % 4 == 0 && y % 100 != 0) || y % 400 == 0

/-- Days in a month of year `y` (months 1..12). -/
def daysInMonth (y m : Nat) : Nat :=
  if m == 2 then (if isLeap y then 29 else 28)
  else if m == 4 || m == 6 || m == 9 || m == 11 then 30
  else 31

/-- Cumulative days before month `m` in a non-leap year. -/
def monthOffset (m : Nat) : Nat :=
  if m == 1 then 0 else if m == 2 then 31 else if m == 3 then 59
  else if m == 4 then 90 else if m == 5 then 120 else if m == 6 then 151
  else if m == 7 then 181 else if m == 8 then 212 else if m == 9 then 243
  else if m == 10 then 273 else if m == 11 then 304 else 334

/-- Proleptic-Gregorian ordinal of a date; agrees with Python's
`date.toordinal` (0001-01-01 maps to 1), so `d1 <= d2` in Python is
`dayNumber d1 <= dayNumber d2` and `d - timedelta(days=n)` is
`dayNumber d - n`. -/
def dayNumber (d : Date) : Nat :=
  365 * (d.year - 1) + (d.year - 1) / 4 - (d.year - 1) / 100 + (d.year - 1) / 400
    + monthOffset d.month + (if 3 ≤ d.month ∧ isLeap d.year then 1 else 0) + d.day

/-- Split a character list on `'-'`, Python `s.split("-")` semantics. -/
def splitDashAux (cur : List Char) : List Char → List (List Char)
  | [] => [cur.reverse]
  | c :: rest =>
    if c == '-' then cur.reverse :: splitDashAux [] rest
    else splitDashAux (c :: cur) rest

/-- Numeric value of a digit string. -/
def natOfDigits (l : List Char) : Nat :=
  l.foldl (fun a c => a * 10 + (c.toNat - 48)) 0

/-- Is every character an ASCII digit? -/
def allDigits (l : List Char) : Bool :=
  l.all Char.isDigit

/-- `datetime.strptime(s, "%Y-%m-%d").date()` (main.py line 524): exactly a
4-digit year, a 1-2 digit month and a 1-2 digit day separated by dashes,
forming a valid calendar date; anything else raises `ValueError`, modelled
as `none`. -/
def parseYMD (s : String) : Option Date :=
  match splitDashAux [] s.toList with
  | [ys, ms, ds] =>
    if (ys.length == 4 && allDigits ys
        && decide (1 ≤ ms.length) && decide (ms.length ≤ 2) && allDigits ms
        && decide (1 ≤ ds.length) && decide (ds.length ≤ 2) && allDigits ds) = true then
      let y := natOfDigits ys
      let m := natOfDigits ms
      let d := natOfDigits ds
      if (decide (1 ≤ y) && decide (1 ≤ m) && decide (m ≤ 12)
          && decide (1 ≤ d) && decide (d ≤ daysInMonth y m)) = true then
        some ⟨y, m, d⟩
      else none
    else none
  | _ => none

/-- Zero-pad a number to two digits (`%d`, `%m`). -/
def pad2 (n : Nat) : String :=
  if n < 10 then "0" ++ toString n else toString n

/-- Zero-pad a year to four digits (`%Y`). -/
def pad4 (n : Nat) : String :=
  if n < 10 then "000" ++ toString n
  else if n < 100 then "00" ++ toString n
  else if n < 1000 then "0" ++ toString n
  else toString n

/-- `strftime("%d/%m/%Y")` — the `today_str` key of `save_to_csv`
(main.py line 508). -/
def fmtDMY (t : Date) : String :=
  pad2 t.day ++ "/" ++ pad2 t.month ++ "/" ++ pad4 t.year

/-- `strftime("%Y-%m-%d")` — the extraction date stamped on every record
(main.py line 454). -/
def fmtYMD (t : Date) : String :=
  pad4 t.year ++ "-" ++ pad2 t.month ++ "-" ++ pad2 t.day

/-! ## The CSV merge engine (`save_to_csv`, main.py lines 495-546) -/

/-- The parsed content of the ledger CSV: the header line plus the data
rows, each row a list of field strings (`csv.reader` / `csv.writer`
round-trip fields exactly). -/
structure CsvFile where
  header : List String
  rows : List (List String)
deriving DecidableEq, Repr

/-- Uncaught Python exceptions inside `save_to_csv`:
`row[1]` on a too-short row (`IndexError`) and `strptime` on a
non-`%Y-%m-%d` date (`ValueError`). -/
inductive MergeErr where
  | indexErr
  | valueErr
deriving DecidableEq, Repr

/-- Decidable equality for `Except` results, used to evaluate the merge on
concrete inputs. -/
instance exceptDecEq {ε α : Type} [DecidableEq ε] [DecidableEq α] :
    DecidableEq (Except ε α) := fun a b =>
  match a, b with
  | .ok x, .ok y =>
    if h : x = y then .isTrue (by rw [h])
    else .isFalse (by intro hh; cases hh; exact h rfl)
  | .error x, .error y =>
    if h : x = y then .isTrue (by rw [h])
    else .isFalse (by intro hh; cases hh; exact h rfl)
  | .ok _, .error _ => .isFalse (by intro hh; cases hh)
  | .error _, .ok _ => .isFalse (by intro hh; cases hh)

/-- `config.get("Files", "DaysToSave") or 30` (main.py line 511):
a missing or falsy (zero) setting falls back to 30. -/
def effectiveWindow (cfg : Option Nat) : Nat :=
  match cfg with
  | none => 30
  | some n => if n == 0 then 30 else n

/-- One iteration of the existing-row filter (main.py lines 522-529) for a
non-empty row: parse `row[1]` with `strptime("%Y-%m-%d")`, then keep the
row iff `row_date >= earliest_date and row[0] != today_str`.  Note the
source compares `row[0]` — the Symbol field — against the `%d/%m/%Y`
today string. -/
def keepRow (todayKey : String) (earliest : Int) (row : List String) :
    Except MergeErr Bool :=
  match row[1]? with
  | none => .error .indexErr
  | some s =>
    match parseYMD s with
    | none => .error .valueErr
    | some d => .ok (decide ((dayNumber d : Int) ≥ earliest) && row[0]? != some todayKey)

/-- The `for row in reader` loop of main.py lines 521-529: empty rows are
skipped (`if row:`), every other row is kept or dropped by `keepRow`;
a raised exception aborts the whole loop. -/
def filterExisting (todayKey : String) (earliest : Int) :
    List (List String) → Except MergeErr (List (List String))
  | [] => .ok []
  | row :: rest =>
    if row.isEmpty then filterExisting todayKey earliest rest
    else
      match keepRow todayKey earliest row with
      | .error er => .error er
      | .ok keep =>
        match filterExisting todayKey earliest rest with
        | .error er => .error er
        | .ok tail => .ok (if keep then row :: tail else tail)

/-- The default header written when no ledger file exists (main.py
line 516). -/
def defaultHeader : List String :=
  ["Symbol", "Date", "Name", "Currency", "Price"]

/-- `save_to_csv` (main.py lines 495-546) as a transformation of the
ledger-file content: compute `today_str = %d/%m/%Y` and
`earliest_date = today - timedelta(days=days_to_save)`, filter the
existing rows, then write header + filtered existing rows + the new
data rows.  An exception while reading the existing file propagates
before anything is written. -/
def save_to_csv (cfg : Option Nat) (today : Date) (data : List (List String))
    (file : Option CsvFile) : Except MergeErr CsvFile :=
  let todayKey := fmtDMY today
  let earliest : Int := (dayNumber today : Int) - (effectiveWindow cfg : Int)
  match file with
  | none => .ok ⟨defaultHeader, data⟩
  | some f =>
    match filterExisting todayKey earliest f.rows with
    | .error er => .error er
    | .ok kept => .ok ⟨f.header, kept ++ data⟩

/-! ## The table extractor (`extract_fund_data` / `extract_apir_code`,
main.py lines 372-492)

The selenium driver is abstracted as an environment: each data row of the
watchlist table carries the outcome of reading its cells, the result of
scanning the current page for the APIR label, the outcome of the detail
page wait inside the secondary tab, and the scan result on the detail
page.  Driver faults that the code catches (`TimeoutException`,
`WebDriverException`) are explicit `DrvFault` values. -/

/-- A selenium fault caught by the code: either a `TimeoutException` or a
general `WebDriverException`. -/
inductive DrvFault where
  | timeout
  | webdriver
deriving DecidableEq, Repr

/-- The cells of one watchlist row as read by main.py lines 467-473:
fund name, detail-page URL and the raw price text.  (The `float(...)`
conversion of the price text is kept symbolic; no claim depends on the
numeric value.) -/
structure ParsedCells where
  fund_name : String
  fund_url : String
  priceText : String
deriving DecidableEq, Repr

/-- The environment-determined outcomes for one table row. -/
structure RowEnv where
  /-- Reading the row's cells, link and price text (driver may fault). -/
  cells : Except DrvFault ParsedCells
  /-- Scan of the current (watchlist) page for the `Fund_APIRCode` label
  performed by the first `extract_apir_code` call; `some c` when a label
  row with an adjacent cell of text `c` is found. -/
  mainScan : Option String
  /-- The `WebDriverWait` for `table.table-performance` in the secondary
  tab (main.py lines 481-483). -/
  detailWait : Except DrvFault Unit
  /-- Scan of the detail page for the `Fund_APIRCode` label. -/
  detailScan : Option String
deriving DecidableEq, Repr

/-- A record emitted by the extractor: the tuple
`(apir_code, today_str, fund_name, "AUD", price_value)` of main.py
line 488. -/
structure FundRec where
  code : Option String
  date : String
  name : String
  currency : String
  price : String
deriving DecidableEq, Repr

/-- Python truthiness of an optional string (`if not apir_code:`):
`None` and the empty string are falsy. -/
def truthy : Option String → Bool
  | none => false
  | some c => c != ""

/-- The cache-lookup loop of `extract_apir_code` (main.py lines 385-387):
the first entry whose `fund_name` matches and whose `apir_code` is truthy
wins; entries with an empty code are passed over. -/
def cacheLookup (cache : List (String × String)) (name : String) : Option String :=
  match cache with
  | [] => none
  | (n, c) :: rest =>
    if n == name && c != "" then some c else cacheLookup rest name

/-- `extract_apir_code` (main.py lines 372-406) given the current cache
content and the scan outcome on the current page: on cache hit return the
cached code; otherwise take the scanned code, appending a `(name, code)`
entry to the cache only when the scanned code is truthy.  The page scan's
own `WebDriverException` is caught internally (lines 399-400), so this
function never raises. -/
def extract_apir_code (cache : List (String × String)) (name : String)
    (scan : Option String) : Option String × List (String × String) :=
  match cacheLookup cache name with
  | some c => (some c, cache)
  | none =>
    match scan with
    | some c => if c != "" then (some c, cache ++ [(name, c)]) else (some c, cache)
    | none => (none, cache)

/-- Browser-tab events performed while processing rows. -/
inductive Ev where
  | openTab
  | navDetail (url : String)
  | closeTab
  | switchBack
deriving DecidableEq, Repr

/-- The body of the `for row in rows` loop (main.py lines 465-490) for one
row: returns the emitted record (if any), the tab events performed, and
the resulting cache.  A `WebDriverException` anywhere in the body — reading
cells, or the wait inside the secondary tab — is caught by the enclosing
handler (line 489), which logs and falls through to the next row; in the
secondary-tab fault case the tab has already been opened and is not
closed. -/
def processRow (today : String) (cache : List (String × String)) (r : RowEnv) :
    Option FundRec × List Ev × List (String × String) :=
  match r.cells with
  | .error _ => (none, [], cache)
  | .ok pc =>
    let res := extract_apir_code cache pc.fund_name r.mainScan
    if truthy res.1 then
      (some ⟨res.1, today, pc.fund_name, "AUD", pc.priceText⟩, [], res.2)
    else
      match r.detailWait with
      | .error _ => (none, [Ev.openTab, Ev.navDetail pc.fund_url], res.2)
      | .ok _ =>
        let res2 := extract_apir_code res.2 pc.fund_name r.detailScan
        (some ⟨res2.1, today, pc.fund_name, "AUD", pc.priceText⟩,
          [Ev.openTab, Ev.navDetail pc.fund_url, Ev.closeTab, Ev.switchBack],
          res2.2)

/-- The full row loop: threads the persisted fund-code cache through the
rows and collects the emitted records and the tab events in order. -/
def processRows (today : String) (cache : List (String × String)) :
    List RowEnv → List FundRec × List Ev
  | [] => ([], [])
  | r :: rest =>
    let step := processRow today cache r
    let tail := processRows today step.2.2 rest
    (match step.1 with
     | some x => x :: tail.1
     | none => tail.1,
     step.2.1 ++ tail.2)

/-- The header-resolution loop of main.py lines 441-446: one pass over the
headers, overwriting `fund_col_index` whenever the stripped, lower-cased
header text contains `"fund"` and `price_col_index` whenever it contains
`"current unit price"` (so the last matching header wins). -/
def colLoop (i : Nat) (acc : Option Nat × Option Nat) :
    List String → Option Nat × Option Nat
  | [] => acc
  | h :: rest =>
    let t := normHeader h
    colLoop (i + 1)
      (if hasSubList "fund".toList t then some i else acc.1,
       if hasSubList "current unit price".toList t then some i else acc.2)
      rest

/-- `extract_fund_data` (main.py lines 409-492): a driver fault while
reading the headers is fatal (`None`); failing to resolve either required
column is fatal (`None`); otherwise every row is processed in order and
the collected records are returned. -/
def extract_fund_data (today : String) (headersR : Except DrvFault (List String))
    (rows : List RowEnv) (cache : List (String × String)) : Option (List FundRec) :=
  match headersR with
  | .error _ => none
  | .ok headers =>
    match colLoop 0 (none, none) headers with
    | (some _, some _) => some (processRows today cache rows).1
    | _ => none

/-! ## Tab accounting (for the single-secondary-tab property) -/

/-- Net effect of one event on the number of open secondary tabs. -/
def tabDelta : Ev → Int
  | .openTab => 1
  | .closeTab => -1
  | _ => 0

/-- Net number of secondary tabs left open by an event sequence. -/
def netTabs : List Ev → Int
  | [] => 0
  | e :: rest => tabDelta e + netTabs rest

/-- Running maximum of the open-tab count along an event sequence,
starting from `cur` open tabs with best-so-far `best`. -/
def runningMax (cur best : Int) : List Ev → Int
  | [] => best
  | e :: rest => runningMax (cur + tabDelta e) (max best (cur + tabDelta e)) rest

/-- The peak number of secondary tabs simultaneously open during an event
sequence (starting from zero open tabs). -/
def peakTabs (evs : List Ev) : Int :=
  runningMax 0 0 evs

/-- Did the secondary-tab wait of this row succeed (no driver fault while
the secondary tab would be open)? -/
def waitOk (r : RowEnv) : Bool :=
  match r.detailWait with
  | .ok _ => true
  | .error _ => false

/-- Does the loop body fault on this row (given the cache state at that
point): either the cell read faults, or the code is not cached and not on
the current page and the secondary-tab wait faults. -/
def rowFault (cache : List (String × String)) (r : RowEnv) : Bool :=
  match r.cells with
  | .error _ => true
  | .ok pc => !truthy (extract_apir_code cache pc.fund_name r.mainScan).1 && !waitOk r

/-! ## The session flow and the runner (`try_login_bypass` / `main`,
main.py lines 80-120 and 549-638) -/

/-- An uncaught Python exception reaching `main`'s catch-all handler. -/
inductive PyExc where
  /-- The zero-argument call `save_cookies()` at main.py line 114: the
  function requires three positional arguments, so the call raises
  `TypeError` whenever it executes. -/
  | typeErr
deriving DecidableEq, Repr

/-- `try_login_bypass` (main.py lines 80-120): with no cookie file,
`load_cookies` returns `False` and the function returns `False`; with a
cookie file loaded, the watchlist page is requested and the code waits for
the `My Account` marker — on success return `True`; on
`TimeoutException` the handler executes `save_cookies()` with no
arguments, which raises `TypeError` (the `return False` below it is never
reached). -/
def try_login_bypass (cookiePresent marker : Bool) : Except PyExc Bool :=
  if !cookiePresent then .ok false
  else if marker then .ok true
  else .error .typeErr

/-- The run-level events of `main` that the claims observe. -/
inductive MEv where
  | deleteCookies
  | loginCall
  | saveCookiesCall
  | mergeCall
deriving DecidableEq, Repr

/-- The cross-run state `main` can modify: whether the cookie file exists
and the content of the CSV ledger file (`none` = file absent). -/
structure World where
  cookieFile : Bool
  csvFile : Option CsvFile
deriving DecidableEq, Repr

/-- The environment of one run: outcomes of every external interaction. -/
structure RunEnv where
  /-- Does the `My Account` marker appear after loading cookies? -/
  resumeMarker : Bool
  /-- Does the interactive `login` return `True`? -/
  loginOk : Bool
  /-- Does `get_watchlist_table` return a table (vs `None`)? -/
  tableOk : Bool
  /-- Outcome of reading the table headers. -/
  headersR : Except DrvFault (List String)
  /-- The data rows of the table. -/
  rows : List RowEnv
  /-- The persisted fund-code cache at the start of extraction. -/
  codeCache : List (String × String)
  /-- Today's date. -/
  today : Date
  /-- The `Files.DaysToSave` setting. -/
  daysCfg : Option Nat
deriving Repr

/-- `csv.writer` rendering of one extracted tuple (main.py lines 543-544):
`None` is written as the empty string, every other field verbatim. -/
def recToRow (r : FundRec) : List String :=
  [(match r.code with | some c => c | none => ""), r.date, r.name, r.currency, r.price]

/-- The tail of `main` after a session is established (main.py lines
598-625): fetch the table (exit 1 on `None`), extract (exit 1 on `None`),
then merge into the CSV; an exception inside `save_to_csv` is caught by
the catch-all (lines 615-621), leaving the file as it was.  Returns the
final world, `true` for a successful exit, and the event trace. -/
def afterSession (env : RunEnv) (w : World) (tr : List MEv) :
    World × Bool × List MEv :=
  if !env.tableOk then (w, false, tr)
  else
    match extract_fund_data (fmtYMD env.today) env.headersR env.rows env.codeCache with
    | none => (w, false, tr)
    | some recs =>
      match save_to_csv env.daysCfg env.today (recs.map recToRow) w.csvFile with
      | .error _ => (w, false, tr ++ [MEv.mergeCall])
      | .ok f => ({ w with csvFile := some f }, true, tr ++ [MEv.mergeCall])

/-- `main` (main.py lines 549-638): attempt the cookie bypass; an
exception there is caught by the catch-all (run aborts, nothing else
happens).  If the bypass reports `False`, delete the cookie file, run the
interactive login, persist cookies on success or exit 1 on failure; then
proceed to extraction and merge. -/
def main (env : RunEnv) (w : World) : World × Bool × List MEv :=
  match try_login_bypass w.cookieFile env.resumeMarker with
  | .error _ => (w, false, [])
  | .ok true => afterSession env w []
  | .ok false =>
    if env.loginOk then
      afterSession env { w with cookieFile := true }
        [MEv.deleteCookies, MEv.loginCall, MEv.saveCookiesCall]
    else
      ({ w with cookieFile := false }, false, [MEv.deleteCookies, MEv.loginCall])

/-! ## Lemmas about the merge engine -/

/-- A row with a second field cannot be the empty row. -/
theorem isEmpty_false_of_get1 {row : List String} {s : String}
    (h : row[1]? = some s) : row.isEmpty = false := by
  cases row with
  | nil => simp [List.get?] at h
  | cons a l => rfl

/-- `keepRow` raises `ValueError` when the date field does not parse. -/
theorem keepRow_valueErr {k : String} {e : Int} {row : List String} {s : String}
    (hs : row[1]? = some s) (hp : parseYMD s = none) :
    keepRow k e row = .error .valueErr := by
  simp [keepRow, hs, hp]

/-- Unfolding `keepRow` on a successful result: the row's date field exists
and parses, and the keep decision is exactly the source's condition
`row_date >= earliest_date and row[0] != today_str`. -/
theorem keepRow_ok_parse {k : String} {e : Int} {row : List String} {b : Bool}
    (h : keepRow k e row = .ok b) :
    ∃ s d, row[1]? = some s ∧ parseYMD s = some d ∧
      b = (decide ((dayNumber d : Int) ≥ e) && row[0]? != some k) := by
  unfold keepRow at h
  split at h
  · exact Except.noConfusion h
  · rename_i s hs
    split at h
    · exact Except.noConfusion h
    · rename_i d hd
      cases h
      exact ⟨s, d, hs, hd, rfl⟩

/-- Every row kept by the existing-row filter has a parseable date field
whose day number is at least `earliest`. -/
theorem filterExisting_ok_bound {k : String} {e : Int} :
    ∀ {rows out : List (List String)}, filterExisting k e rows = .ok out →
      ∀ row ∈ out, ∃ s d, row[1]? = some s ∧ parseYMD s = some d ∧
        (dayNumber d : Int) ≥ e := by
  intro rows
  induction rows with
  | nil =>
    intro out h row hrow
    simp only [filterExisting] at h
    cases h
    cases hrow
  | cons r rest ih =>
    intro out h row hrow
    simp only [filterExisting] at h
    split at h
    · exact ih h row hrow
    · split at h
      · exact Except.noConfusion h
      · rename_i keep hk
        split at h
        · exact Except.noConfusion h
        · rename_i tail ht
          cases h
          cases keep with
          | false =>
            simp only [Bool.false_eq_true, if_false] at hrow
            exact ih ht row hrow
          | true =>
            simp only [if_pos] at hrow
            cases hrow with
            | head =>
              obtain ⟨s, d, hs, hd, hb⟩ := keepRow_ok_parse hk
              refine ⟨s, d, hs, hd, ?_⟩
              have hb' := hb.symm
              rw [Bool.and_eq_true] at hb'
              exact of_decide_eq_true hb'.1
            | tail _ hmem => exact ih ht row hmem

/-- If some existing row's date field is present but does not parse as
`%Y-%m-%d`, the whole filtering loop raises (returns an error). -/
theorem filterExisting_badrow {k : String} {e : Int} :
    ∀ {rows : List (List String)},
      (∃ row ∈ rows, ∃ s, row[1]? = some s ∧ parseYMD s = none) →
      ∃ er, filterExisting k e rows = .error er := by
  intro rows
  induction rows with
  | nil => rintro ⟨row, hmem, _⟩; cases hmem
  | cons r rest ih =>
    rintro ⟨row, hmem, s, hs, hp⟩
    cases hmem with
    | head =>
      refine ⟨.valueErr, ?_⟩
      simp only [filterExisting, isEmpty_false_of_get1 hs, Bool.false_eq_true, if_false]
      rw [keepRow_valueErr hs hp]
    | tail _ hmem' =>
      obtain ⟨er, her⟩ := ih ⟨row, hmem', s, hs, hp⟩
      simp only [filterExisting]
      split
      · exact ⟨er, her⟩
      · cases hk : keepRow k e r with
        | error er' => exact ⟨er', rfl⟩
        | ok keep => rw [her]; exact ⟨er, rfl⟩

/-- If the filtering loop succeeds, every non-empty existing row had a
parseable `%Y-%m-%d` date field. -/
theorem filterExisting_ok_all_parse {k : String} {e : Int} :
    ∀ {rows out : List (List String)}, filterExisting k e rows = .ok out →
      ∀ row ∈ rows, row.isEmpty = false →
        ∃ s d, row[1]? = some s ∧ parseYMD s = some d := by
  intro rows
  induction rows with
  | nil => intro out h row hmem; cases hmem
  | cons r rest ih =>
    intro out h row hmem hne
    simp only [filterExisting] at h
    cases hmem with
    | head =>
      rw [hne] at h
      simp only [Bool.false_eq_true, if_false] at h
      cases hk : keepRow k e r with
      | error er => rw [hk] at h; exact Except.noConfusion h
      | ok keep =>
        obtain ⟨s, d, hs, hd, _⟩ := keepRow_ok_parse hk
        exact ⟨s, d, hs, hd⟩
    | tail _ hmem' =>
      split at h
      · exact ih h row hmem' hne
      · split at h
        · exact Except.noConfusion h
        · split at h
          · exact Except.noConfusion h
          · rename_i tail ht
            exact ih ht row hmem' hne

/-- Unfolding a successful `save_to_csv` over an existing file: the output
is the preserved header, the filtered existing rows, then the new data. -/
theorem save_to_csv_ok_some {cfg : Option Nat} {t : Date}
    {data : List (List String)} {f out : CsvFile}
    (h : save_to_csv cfg t data (some f) = .ok out) :
    ∃ kept, filterExisting (fmtDMY t) ((dayNumber t : Int) - (effectiveWindow cfg : Int))
        f.rows = .ok kept ∧ out = ⟨f.header, kept ++ data⟩ := by
  simp only [save_to_csv] at h
  split at h
  · exact Except.noConfusion h
  · rename_i kept hk
    cases h
    exact ⟨kept, hk, rfl⟩

/-- `save_to_csv` raises when some existing row's date field does not
parse as `%Y-%m-%d`; nothing is written in that case. -/
theorem save_to_csv_badrow (cfg : Option Nat) (t : Date)
    (data : List (List String)) (f : CsvFile)
    (h : ∃ row ∈ f.rows, ∃ s, row[1]? = some s ∧ parseYMD s = none) :
    ∃ er, save_to_csv cfg t data (some f) = .error er := by
  obtain ⟨er, her⟩ :=
    filterExisting_badrow (k := fmtDMY t)
      (e := (dayNumber t : Int) - (effectiveWindow cfg : Int)) h
  refine ⟨er, ?_⟩
  simp only [save_to_csv]
  rw [her]

/-- `afterSession` fails without touching the world when the table or the
extraction fails. -/
theorem afterSession_fail {env : RunEnv} {w : World} {tr : List MEv}
    (h : env.tableOk = false
       ∨ extract_fund_data (fmtYMD env.today) env.headersR env.rows env.codeCache = none) :
    afterSession env w tr = (w, false, tr) := by
  unfold afterSession
  cases h with
  | inl h1 => simp [h1]
  | inr h2 =>
    cases htab : env.tableOk with
    | false => simp [htab]
    | true => simp [htab, h2]

/-- `afterSession` leaves the ledger untouched and fails whenever the
ledger on disk contains a row whose date field does not parse. -/
theorem afterSession_csv_of_badrow {env : RunEnv} {w : World} {tr : List MEv}
    {f : CsvFile} (hw : w.csvFile = some f)
    (hbad : ∃ row ∈ f.rows, ∃ s, row[1]? = some s ∧ parseYMD s = none) :
    (afterSession env w tr).1.csvFile = some f ∧ (afterSession env w tr).2.1 = false := by
  unfold afterSession
  split
  · exact ⟨hw, rfl⟩
  · split
    · exact ⟨hw, rfl⟩
    · rename_i recs hex
      rw [hw]
      obtain ⟨er, her⟩ :=
        save_to_csv_badrow env.daysCfg env.today (recs.map recToRow) f hbad
      rw [her]
      exact ⟨hw, rfl⟩

/-! ## Claim C1 -/

/-- C1: the same-day merge is NOT idempotent.  At existing rows `E = []`,
new records `N = [("ABC", "2026-10-12", "Fund A", "AUD", "1.25")]`,
window `w = 30` and `t = 2026-10-12`, one merge yields the single record,
and re-running the merge on its own output appends the record a second
time: the filter keeps the today-dated row because line 528 of the source
compares the Symbol field `row[0]` against the `%d/%m/%Y` key
`"12/10/2026"` instead of comparing the Date field, contradicting the
code's own comments ("read and remove today's rows", "without today's
duplicates"). -/
theorem c1_same_day_merge_not_idempotent :
    save_to_csv (some 30) ⟨2026, 10, 12⟩ [["ABC", "2026-10-12", "Fund A", "AUD", "1.25"]]
        (some ⟨defaultHeader, []⟩)
      = .ok ⟨defaultHeader, [["ABC", "2026-10-12", "Fund A", "AUD", "1.25"]]⟩
    ∧ save_to_csv (some 30) ⟨2026, 10, 12⟩ [["ABC", "2026-10-12", "Fund A", "AUD", "1.25"]]
        (some ⟨defaultHeader, [["ABC", "2026-10-12", "Fund A", "AUD", "1.25"]]⟩)
      = .ok ⟨defaultHeader, [["ABC", "2026-10-12", "Fund A", "AUD", "1.25"],
              ["ABC", "2026-10-12", "Fund A", "AUD", "1.25"]]⟩
    ∧ ([["ABC", "2026-10-12", "Fund A", "AUD", "1.25"],
        ["ABC", "2026-10-12", "Fund A", "AUD", "1.25"]] : List (List String))
      ≠ [["ABC", "2026-10-12", "Fund A", "AUD", "1.25"]] :=
  ⟨rfl, rfl, by decide⟩

/-! ## Claim C2 -/

/-- C2: an existing row whose date equals today is NOT dropped.  With
`t = 2026-10-12` and the existing row
`["ABC", "2026-10-12", "Fund A", "AUD", "1.25"]` (whose date field parses
to exactly `t`), the merge keeps the row: the supersede test of line 528
compares `row[0] = "ABC"` — the Symbol — with `today_str = "12/10/2026"`,
so it never matches the date key, contradicting the source's own comment
"read and remove today's rows". -/
theorem c2_today_row_not_superseded :
    parseYMD "2026-10-12" = some ⟨2026, 10, 12⟩
    ∧ save_to_csv (some 30) ⟨2026, 10, 12⟩ []
        (some ⟨defaultHeader, [["ABC", "2026-10-12", "Fund A", "AUD", "1.25"]]⟩)
      = .ok ⟨defaultHeader, [["ABC", "2026-10-12", "Fund A", "AUD", "1.25"]]⟩ :=
  ⟨rfl, rfl⟩

/-! ## Claim C3 -/

/-- C3: when a cookie file exists but the resume wait for the account
marker times out, `try_login_bypass` does not delete the cookie file and
return `false` — it raises `TypeError` (the handler at line 114 calls
`save_cookies()` without its three required arguments), so `main`'s
catch-all aborts the run: the world is unchanged (cookie file still
present), the exit is a failure, and the trace is empty — in particular
the interactive login is never invoked. -/
theorem c3_stale_cookie_resume_raises (env : RunEnv) (w : World)
    (hc : w.cookieFile = true) (hm : env.resumeMarker = false) :
    try_login_bypass w.cookieFile env.resumeMarker = .error .typeErr
      ∧ main env w = (w, false, []) := by
  obtain ⟨rm, lo, tb, hd, rs, cc, td, dc⟩ := env
  obtain ⟨cf, csv⟩ := w
  cases hc
  cases hm
  exact ⟨rfl, rfl⟩

/-- C3 witness: the concrete stale-cookie run. -/
theorem c3_stale_cookie_resume_raises_witness :
    try_login_bypass (World.mk true none).cookieFile
        (RunEnv.mk false true true (.ok []) [] [] ⟨2026, 10, 12⟩ (some 30)).resumeMarker
      = .error .typeErr
    ∧ main (RunEnv.mk false true true (.ok []) [] [] ⟨2026, 10, 12⟩ (some 30))
        (World.mk true none)
      = (World.mk true none, false, []) :=
  c3_stale_cookie_resume_raises
    (RunEnv.mk false true true (.ok []) [] [] ⟨2026, 10, 12⟩ (some 30))
    (World.mk true none) rfl rfl

/-! ## Claim C4 -/

/-- C4: a row with a date outside `[t - w, t]` DOES survive the merge.
With `t = 2026-10-12`, `w = 30` and an existing row dated `2027-01-01`
(strictly after `t`), the merge keeps the row: line 528 only checks
`row_date >= earliest_date`, never an upper bound. -/
theorem c4_out_of_window_row_survives :
    parseYMD "2027-01-01" = some ⟨2027, 1, 1⟩
    ∧ dayNumber ⟨2026, 10, 12⟩ < dayNumber ⟨2027, 1, 1⟩
    ∧ save_to_csv (some 30) ⟨2026, 10, 12⟩ []
        (some ⟨defaultHeader, [["ABC", "2027-01-01", "Fund A", "AUD", "1.00"]]⟩)
      = .ok ⟨defaultHeader, [["ABC", "2027-01-01", "Fund A", "AUD", "1.00"]]⟩ :=
  ⟨rfl, by decide, rfl⟩

/-- C4 (amended): the merge enforces a lower retention bound only, and
only on pre-existing rows: whenever `save_to_csv` succeeds, its output is
the kept existing rows followed by the new records, and every kept
existing row has a parseable date whose ordinal is at least
`dayNumber t - w` (so every row older than the window is pruned,
regardless of input order); no upper bound is enforced and the appended
new records are not date-filtered at all. -/
theorem c4_retention_lower_bound (cfg : Option Nat) (t : Date)
    (data : List (List String)) (f out : CsvFile)
    (h : save_to_csv cfg t data (some f) = .ok out) :
    ∃ kept, out.rows = kept ++ data ∧
      ∀ row ∈ kept, ∃ s d, row[1]? = some s ∧ parseYMD s = some d ∧
        (dayNumber d : Int) ≥ (dayNumber t : Int) - (effectiveWindow cfg : Int) := by
  obtain ⟨kept, hk, ho⟩ := save_to_csv_ok_some h
  exact ⟨kept, by rw [ho], fun row hrow => filterExisting_ok_bound hk row hrow⟩

/-- C4 witness: the amended bound evaluated on a concrete in-window row. -/
theorem c4_retention_lower_bound_witness :
    ∃ kept, (CsvFile.mk defaultHeader [["XYZ", "2026-10-01", "Fund B", "AUD", "2.00"]]).rows
        = kept ++ ([] : List (List String)) ∧
      ∀ row ∈ kept, ∃ s d, row[1]? = some s ∧ parseYMD s = some d ∧
        (dayNumber d : Int) ≥ (dayNumber ⟨2026, 10, 12⟩ : Int)
          - (effectiveWindow (some 30) : Int) :=
  c4_retention_lower_bound (some 30) ⟨2026, 10, 12⟩ []
    ⟨defaultHeader, [["XYZ", "2026-10-01", "Fund B", "AUD", "2.00"]]⟩
    ⟨defaultHeader, [["XYZ", "2026-10-01", "Fund B", "AUD", "2.00"]]⟩ rfl

/-! ## Claim C10 -/

/-- C10: the merge is not total over its own on-disk formats.  If the
existing ledger contains a data row whose date field is not strict
`%Y-%m-%d` (for example the `%d/%m/%Y` convention of the merge's own
today-key), `save_to_csv` raises before writing anything; a successful
merge therefore implies every non-empty existing row's date parsed; and
on any run whose ledger contains such a row, `main` aborts through its
catch-all with the ledger file byte-for-byte unchanged and no new records
saved. -/
theorem c10_unparseable_date_aborts :
    (∀ (cfg : Option Nat) (t : Date) (data : List (List String)) (f : CsvFile),
      (∃ row ∈ f.rows, ∃ s, row[1]? = some s ∧ parseYMD s = none) →
        ∃ er, save_to_csv cfg t data (some f) = .error er)
    ∧ (∀ (cfg : Option Nat) (t : Date) (data : List (List String)) (f out : CsvFile),
      save_to_csv cfg t data (some f) = .ok out →
        ∀ row ∈ f.rows, row.isEmpty = false →
          ∃ s d, row[1]? = some s ∧ parseYMD s = some d)
    ∧ (∀ (env : RunEnv) (w : World) (f : CsvFile), w.csvFile = some f →
      (∃ row ∈ f.rows, ∃ s, row[1]? = some s ∧ parseYMD s = none) →
        (main env w).1.csvFile = some f ∧ (main env w).2.1 = false) := by
  refine ⟨fun cfg t data f h => save_to_csv_badrow cfg t data f h, ?_, ?_⟩
  · intro cfg t data f out h row hrow hne
    obtain ⟨kept, hk, _⟩ := save_to_csv_ok_some h
    exact filterExisting_ok_all_parse hk row hrow hne
  · intro env w f hw hbad
    cases hbp : try_login_bypass w.cookieFile env.resumeMarker with
    | error e => simp only [main, hbp]; exact ⟨hw, trivial⟩
    | ok b =>
      cases b with
      | true =>
        simp only [main, hbp]
        exact afterSession_csv_of_badrow hw hbad
      | false =>
        cases hl : env.loginOk with
        | true =>
          simp only [main, hbp, hl, if_pos]
          exact afterSession_csv_of_badrow hw hbad
        | false =>
          simp only [main, hbp, hl, Bool.false_eq_true, if_false]
          exact ⟨hw, trivial⟩

/-- C10 witness: a ledger holding a `%d/%m/%Y` row makes the merge raise,
and `main` leaves that ledger untouched. -/
theorem c10_unparseable_date_aborts_witness :
    (∃ er, save_to_csv (some 30) ⟨2026, 10, 12⟩ []
        (some ⟨defaultHeader, [["ABC", "12/10/2026", "Fund A", "AUD", "1.25"]]⟩)
      = .error er)
    ∧ (main (RunEnv.mk true true true (.ok []) [] [] ⟨2026, 10, 12⟩ (some 30))
          (World.mk true (some ⟨defaultHeader,
            [["ABC", "12/10/2026", "Fund A", "AUD", "1.25"]]⟩))).1.csvFile
        = some ⟨defaultHeader, [["ABC", "12/10/2026", "Fund A", "AUD", "1.25"]]⟩ :=
  ⟨c10_unparseable_date_aborts.1 (some 30) ⟨2026, 10, 12⟩ []
    ⟨defaultHeader, [["ABC", "12/10/2026", "Fund A", "AUD", "1.25"]]⟩
    ⟨["ABC", "12/10/2026", "Fund A", "AUD", "1.25"], by decide, "12/10/2026", rfl, rfl⟩,
   (c10_unparseable_date_aborts.2.2
      (RunEnv.mk true true true (.ok []) [] [] ⟨2026, 10, 12⟩ (some 30))
      (World.mk true (some ⟨defaultHeader,
        [["ABC", "12/10/2026", "Fund A", "AUD", "1.25"]]⟩))
      ⟨defaultHeader, [["ABC", "12/10/2026", "Fund A", "AUD", "1.25"]]⟩ rfl
      ⟨["ABC", "12/10/2026", "Fund A", "AUD", "1.25"], by decide, "12/10/2026", rfl, rfl⟩).1⟩

/-! ## Lemmas about the extractor -/

/-- A cache hit always carries a non-empty code (the lookup skips entries
whose `apir_code` is falsy). -/
theorem cacheLookup_ne_empty :
    ∀ {cache : List (String × String)} {name c : String},
      cacheLookup cache name = some c → c ≠ "" := by
  intro cache
  induction cache with
  | nil => intro name c h; exact Option.noConfusion h
  | cons p rest ih =>
    intro name c h
    obtain ⟨n, c'⟩ := p
    simp only [cacheLookup] at h
    split at h
    · rename_i hcond
      cases h
      rw [Bool.and_eq_true] at hcond
      exact fun he => by rw [he] at hcond; exact absurd hcond.2 (by decide)
    · exact ih h

/-- A populated cache entry with a non-empty code guarantees a hit. -/
theorem cacheLookup_isSome_of_mem :
    ∀ {cache : List (String × String)} {name c : String},
      (name, c) ∈ cache → c ≠ "" → (cacheLookup cache name).isSome = true := by
  intro cache
  induction cache with
  | nil => intro name c h; cases h
  | cons p rest ih =>
    intro name c h hne
    obtain ⟨n, c'⟩ := p
    simp only [cacheLookup]
    split
    · rfl
    · rename_i hcond
      cases h with
      | head =>
        exfalso
        apply hcond
        rw [Bool.and_eq_true]
        exact ⟨by simp, by simp [bne_iff_ne, hne]⟩
      | tail _ hmem => exact ih hmem hne

/-- On a cache hit, `extract_apir_code` returns the cached code and leaves
the cache unchanged. -/
theorem extract_apir_code_hit {cache : List (String × String)}
    {name c : String} (scan : Option String)
    (h : cacheLookup cache name = some c) :
    extract_apir_code cache name scan = (some c, cache) := by
  simp [extract_apir_code, h]

/-- Whenever `extract_apir_code` returns a falsy code, it has not modified
the cache (only a truthy discovered code is persisted). -/
theorem extract_apir_code_cache_of_not_truthy {cache : List (String × String)}
    {name : String} {scan : Option String}
    (h : truthy (extract_apir_code cache name scan).1 = false) :
    (extract_apir_code cache name scan).2 = cache := by
  cases hc : cacheLookup cache name with
  | some c =>
    rw [extract_apir_code_hit scan hc] at h
    exact absurd h (by simp [truthy, bne_iff_ne, cacheLookup_ne_empty hc])
  | none =>
    cases scan with
    | none => simp [extract_apir_code, hc]
    | some c =>
      by_cases hce : (c != "") = true
      · have he : extract_apir_code cache name (some c) = (some c, cache ++ [(name, c)]) := by
          simp [extract_apir_code, hc, hce]
        rw [he] at h
        exact absurd h (by simp [truthy, hce])
      · simp [extract_apir_code, hc, hce]

/-- A faulting row emits no record and leaves the cache unchanged. -/
theorem processRow_fault (today : String) (cache : List (String × String))
    (r : RowEnv) (h : rowFault cache r = true) :
    (processRow today cache r).1 = none ∧ (processRow today cache r).2.2 = cache := by
  unfold rowFault at h
  cases hc : r.cells with
  | error e => simp [processRow, hc]
  | ok pc =>
    simp only [hc] at h
    rw [Bool.and_eq_true] at h
    obtain ⟨ht, hw⟩ := h
    rw [Bool.not_eq_true'] at ht
    rw [Bool.not_eq_true'] at hw
    simp only [processRow, hc, ht, Bool.false_eq_true, if_false]
    cases hd : r.detailWait with
    | ok u =>
      exfalso
      unfold waitOk at hw
      rw [hd] at hw
      exact Bool.noConfusion hw
    | error e =>
      exact ⟨rfl, extract_apir_code_cache_of_not_truthy ht⟩

/-- A non-faulting row emits exactly one record. -/
theorem processRow_success (today : String) (cache : List (String × String))
    (r : RowEnv) (h : rowFault cache r = false) :
    ∃ rec, (processRow today cache r).1 = some rec := by
  unfold rowFault at h
  cases hc : r.cells with
  | error e => simp only [hc] at h; exact Bool.noConfusion h
  | ok pc =>
    simp only [hc] at h
    cases ht : truthy (extract_apir_code cache pc.fund_name r.mainScan).1 with
    | true =>
      simp only [processRow, hc, ht, if_true]
      exact ⟨_, rfl⟩
    | false =>
      rw [ht] at h
      simp only [Bool.not_false, Bool.true_and] at h
      cases hd : r.detailWait with
      | error e =>
        exfalso
        have hw : waitOk r = false := by unfold waitOk; rw [hd]
        rw [hw] at h
        exact Bool.noConfusion h
      | ok u =>
        simp only [processRow, hc, ht, hd, Bool.false_eq_true, if_false]
        exact ⟨_, rfl⟩

/-- Skipping a faulting row: the records collected from `r :: rest` are
precisely the records collected from `rest`. -/
theorem processRows_fault_skip {today : String} {cache : List (String × String)}
    {r : RowEnv} (rest : List RowEnv) (h : rowFault cache r = true) :
    (processRows today cache (r :: rest)).1 = (processRows today cache rest).1 := by
  obtain ⟨h1, h2⟩ := processRow_fault today cache r h
  simp only [processRows, h1, h2]

/-- A successful row contributes its record at the head of the remaining
records. -/
theorem processRows_success_cons {today : String} {cache : List (String × String)}
    {r : RowEnv} (rest : List RowEnv) (h : rowFault cache r = false) :
    ∃ rec, (processRows today cache (r :: rest)).1
      = rec :: (processRows today (processRow today cache r).2.2 rest).1 := by
  obtain ⟨rec, hrec⟩ := processRow_success today cache r h
  exact ⟨rec, by simp only [processRows, hrec]⟩

/-- Once both columns resolve, extraction always returns the collected
records (never the fatal `none`), whatever the rows do. -/
theorem extract_some_of_cols {today : String} {headers : List String}
    {rows : List RowEnv} {cache : List (String × String)} {fi pj : Nat}
    (h : colLoop 0 (none, none) headers = (some fi, some pj)) :
    extract_fund_data today (.ok headers) rows cache
      = some (processRows today cache rows).1 := by
  simp [extract_fund_data, h]

/-- The header scan preserves an already-resolved fund column. -/
theorem colLoop_fst_isSome :
    ∀ (hs : List String) (i : Nat) (acc : Option Nat × Option Nat),
      acc.1.isSome = true → (colLoop i acc hs).1.isSome = true := by
  intro hs
  induction hs with
  | nil => intro i acc h; exact h
  | cons hd rest ih =>
    intro i acc h
    simp only [colLoop]
    apply ih
    split
    · rfl
    · exact h

/-- The header scan preserves an already-resolved price column. -/
theorem colLoop_snd_isSome :
    ∀ (hs : List String) (i : Nat) (acc : Option Nat × Option Nat),
      acc.2.isSome = true → (colLoop i acc hs).2.isSome = true := by
  intro hs
  induction hs with
  | nil => intro i acc h; exact h
  | cons hd rest ih =>
    intro i acc h
    simp only [colLoop]
    apply ih
    dsimp only
    split
    · rfl
    · exact h

/-- Any header containing `"fund"` (after strip/lower) resolves the fund
column. -/
theorem colLoop_fst_of_mem :
    ∀ (hs : List String) (i : Nat) (acc : Option Nat × Option Nat),
      (∃ h ∈ hs, hasSubList "fund".toList (normHeader h) = true) →
      (colLoop i acc hs).1.isSome = true := by
  intro hs
  induction hs with
  | nil => rintro i acc ⟨x, hx, _⟩; cases hx
  | cons hd rest ih =>
    rintro i acc ⟨x, hx, hsub⟩
    simp only [colLoop]
    cases hx with
    | head =>
      apply colLoop_fst_isSome rest (i + 1)
      split
      · rfl
      · rename_i hcond; exact absurd hsub hcond
    | tail _ hmem => exact ih (i + 1) _ ⟨x, hmem, hsub⟩

/-- Any header containing `"current unit price"` (after strip/lower)
resolves the price column. -/
theorem colLoop_snd_of_mem :
    ∀ (hs : List String) (i : Nat) (acc : Option Nat × Option Nat),
      (∃ h ∈ hs, hasSubList "current unit price".toList (normHeader h) = true) →
      (colLoop i acc hs).2.isSome = true := by
  intro hs
  induction hs with
  | nil => rintro i acc ⟨x, hx, _⟩; cases hx
  | cons hd rest ih =>
    rintro i acc ⟨x, hx, hsub⟩
    simp only [colLoop]
    cases hx with
    | head =>
      apply colLoop_snd_isSome rest (i + 1)
      dsimp only
      split
      · rfl
      · rename_i hcond; exact absurd hsub hcond
    | tail _ hmem => exact ih (i + 1) _ ⟨x, hmem, hsub⟩

/-! ## Lemmas for the tab-accounting invariant -/

/-- `netTabs` distributes over concatenation. -/
theorem netTabs_append :
    ∀ (xs ys : List Ev), netTabs (xs ++ ys) = netTabs xs + netTabs ys := by
  intro xs ys
  induction xs with
  | nil => simp [netTabs]
  | cons e rest ih => simp [netTabs, ih, Int.add_assoc]

/-- Splitting a `runningMax` computation at a concatenation point. -/
theorem runningMax_append :
    ∀ (xs ys : List Ev) (cur best : Int),
      runningMax cur best (xs ++ ys)
        = runningMax (cur + netTabs xs) (runningMax cur best xs) ys := by
  intro xs
  induction xs with
  | nil => intro ys cur best; simp [runningMax, netTabs]
  | cons e rest ih =>
    intro ys cur best
    show runningMax (cur + tabDelta e) (max best (cur + tabDelta e)) (rest ++ ys)
        = runningMax (cur + netTabs (e :: rest)) (runningMax cur best (e :: rest)) ys
    rw [ih]
    have h3 : cur + netTabs (e :: rest) = cur + tabDelta e + netTabs rest := by
      show cur + (tabDelta e + netTabs rest) = cur + tabDelta e + netTabs rest
      omega
    rw [h3]
    rfl

/-- On a row whose secondary-tab wait does not fault, the emitted events
are either none at all or the balanced open/navigate/close/switch
quadruple. -/
theorem processRow_events_ok (today : String) (cache : List (String × String))
    (r : RowEnv) (h : waitOk r = true) :
    (processRow today cache r).2.1 = []
    ∨ ∃ u, (processRow today cache r).2.1
        = [Ev.openTab, Ev.navDetail u, Ev.closeTab, Ev.switchBack] := by
  cases hc : r.cells with
  | error e => simp [processRow, hc]
  | ok pc =>
    cases ht : truthy (extract_apir_code cache pc.fund_name r.mainScan).1 with
    | true =>
      simp only [processRow, hc, ht, if_true]
      exact Or.inl trivial
    | false =>
      cases hd : r.detailWait with
      | error e =>
        exfalso
        unfold waitOk at h
        rw [hd] at h
        exact Bool.noConfusion h
      | ok u =>
        simp only [processRow, hc, ht, hd, Bool.false_eq_true, if_false]
        exact Or.inr ⟨pc.fund_url, rfl⟩

/-- Both possible per-row event lists are balanced and never hold more
than one tab open. -/
theorem rm_single_row (best : Int) (evs : List Ev)
    (h : evs = [] ∨ ∃ u, evs = [Ev.openTab, Ev.navDetail u, Ev.closeTab, Ev.switchBack]) :
    runningMax 0 best evs ≤ max best 1 ∧ netTabs evs = 0 := by
  have h0 : (0 : Int) ≤ max best 1 :=
    le_trans (by norm_num) (le_max_right best 1)
  rcases h with h | ⟨u, h⟩ <;> subst h
  · exact ⟨le_max_left best 1, rfl⟩
  · constructor
    · have hrm : runningMax 0 best
          [Ev.openTab, Ev.navDetail u, Ev.closeTab, Ev.switchBack]
          = max (max (max (max best 1) 1) 0) 0 := by
        simp [runningMax, tabDelta]
      rw [hrm]
      have e1 : max (max best 1) 1 = max best 1 := by rw [max_assoc, max_self]
      have e2 : max (max best 1) 0 = max best 1 := max_eq_left h0
      rw [e1, e2, e2]
    · rfl

/-- Tab accounting over the whole loop, generalized over the starting
best-so-far value. -/
theorem processRows_tab_aux (today : String) :
    ∀ (rows : List RowEnv) (cache : List (String × String)) (best : Int),
      (∀ r ∈ rows, waitOk r = true) →
      runningMax 0 best (processRows today cache rows).2 ≤ max best 1
      ∧ netTabs (processRows today cache rows).2 = 0 := by
  intro rows
  induction rows with
  | nil =>
    intro cache best h
    exact ⟨le_max_left best 1, rfl⟩
  | cons r rest ih =>
    intro cache best h
    have hr : waitOk r = true := h r (List.mem_cons_self r rest)
    have hrest : ∀ x ∈ rest, waitOk x = true :=
      fun x hx => h x (List.mem_cons_of_mem r hx)
    obtain ⟨hb, hn⟩ := rm_single_row best (processRow today cache r).2.1
      (processRow_events_ok today cache r hr)
    have hcons : (processRows today cache (r :: rest)).2
        = (processRow today cache r).2.1
          ++ (processRows today (processRow today cache r).2.2 rest).2 := rfl
    obtain ⟨ih1, ih2⟩ := ih (processRow today cache r).2.2
      (runningMax 0 best (processRow today cache r).2.1) hrest
    rw [hcons, runningMax_append, hn, add_zero]
    constructor
    · calc runningMax 0 (runningMax 0 best (processRow today cache r).2.1)
            (processRows today (processRow today cache r).2.2 rest).2
          ≤ max (runningMax 0 best (processRow today cache r).2.1) 1 := ih1
        _ ≤ max (max best 1) 1 := max_le_max hb (le_refl 1)
        _ = max best 1 := by rw [max_assoc, max_self]
    · rw [netTabs_append, hn, ih2]
      rfl

/-! ## Claim C5 -/

/-- C5: the single-secondary-tab property FAILS on fault paths.  With two
rows that both miss the cache and whose detail-page waits time out inside
the secondary tab, the per-row exception handler catches the timeout
without closing the tab, so the second row opens a second tab while the
first is still open: the peak number of simultaneously open secondary
tabs reaches 2, refuting "at most one secondary tab exists at any
instant ... on every execution path including timeouts". -/
theorem c5_two_tabs_open_on_fault :
    ¬ (peakTabs ((processRows "2026-10-12" []
        [⟨.ok ⟨"Fund A", "urlA", "1.25"⟩, none, .error .timeout, none⟩,
         ⟨.ok ⟨"Fund B", "urlB", "2.00"⟩, none, .error .timeout, none⟩]).2) ≤ 1) := by
  decide

/-- C5 (amended): at most one secondary tab at any instant, and every tab
closed before the next row begins, holds on every execution path on which
no driver fault occurs while a secondary tab is open (cell-read faults,
cache hits and code-not-found outcomes included); when a timeout or
driver fault strikes inside the secondary-tab lookup, the tab is leaked
instead. -/
theorem c5_single_tab_when_no_fault (today : String)
    (cache : List (String × String)) (rows : List RowEnv)
    (h : ∀ r ∈ rows, waitOk r = true) :
    peakTabs (processRows today cache rows).2 ≤ 1
    ∧ netTabs (processRows today cache rows).2 = 0 := by
  obtain ⟨h1, h2⟩ := processRows_tab_aux today rows cache 0 h
  refine ⟨?_, h2⟩
  calc peakTabs (processRows today cache rows).2
      = runningMax 0 0 (processRows today cache rows).2 := rfl
    _ ≤ max 0 1 := h1
    _ = 1 := by norm_num

/-- C5 witness: a fault-free run over one cache-missing row keeps the tab
accounting balanced. -/
theorem c5_single_tab_when_no_fault_witness :
    (∀ r ∈ [(⟨.ok ⟨"Fund A", "urlA", "1.25"⟩, none, .ok (), some "ABC123"⟩ : RowEnv)],
      waitOk r = true)
    ∧ (peakTabs ((processRows "2026-10-12" []
          [⟨.ok ⟨"Fund A", "urlA", "1.25"⟩, none, .ok (), some "ABC123"⟩]).2) ≤ 1
       ∧ netTabs ((processRows "2026-10-12" []
          [⟨.ok ⟨"Fund A", "urlA", "1.25"⟩, none, .ok (), some "ABC123"⟩]).2) = 0) :=
  ⟨by decide,
   c5_single_tab_when_no_fault "2026-10-12" []
     [⟨.ok ⟨"Fund A", "urlA", "1.25"⟩, none, .ok (), some "ABC123"⟩] (by decide)⟩

/-! ## Claim C6 -/

/-- C6: column resolution is case-insensitive and substring-based: any
header whose stripped, lower-cased text contains `"fund"` resolves the
fund column, any header containing `"current unit price"` resolves the
price column, and if either column fails to resolve, extraction returns
the fatal `none` and produces no records. -/
theorem c6_header_resolution (headers : List String) :
    ((∃ h ∈ headers, hasSubList "fund".toList (normHeader h) = true) →
      (colLoop 0 (none, none) headers).1.isSome = true)
    ∧ ((∃ h ∈ headers, hasSubList "current unit price".toList (normHeader h) = true) →
      (colLoop 0 (none, none) headers).2.isSome = true)
    ∧ (((colLoop 0 (none, none) headers).1 = none
        ∨ (colLoop 0 (none, none) headers).2 = none) →
      ∀ (today : String) (rows : List RowEnv) (cache : List (String × String)),
        extract_fund_data today (.ok headers) rows cache = none) := by
  refine ⟨fun h => colLoop_fst_of_mem headers 0 (none, none) h,
          fun h => colLoop_snd_of_mem headers 0 (none, none) h, ?_⟩
  intro hnone today rows cache
  simp only [extract_fund_data]
  cases hcl : colLoop 0 (none, none) headers with
  | mk a b =>
    rw [hcl] at hnone
    cases a with
    | none => cases b <;> rfl
    | some av =>
      cases b with
      | none => rfl
      | some bv =>
        rcases hnone with h1 | h1 <;> exact Option.noConfusion h1

/-- C6 witness: `"Fund Name"` and `"Current Unit Price"` resolve both
columns (case-insensitively), and a header list with neither substring
makes extraction return `none`. -/
theorem c6_header_resolution_witness :
    (colLoop 0 (none, none) ["FUND", "Current Unit Price"]).1.isSome = true
    ∧ (colLoop 0 (none, none) ["FUND", "Current Unit Price"]).2.isSome = true
    ∧ extract_fund_data "2026-10-12" (.ok ["Ticker", "Value"]) [] [] = none :=
  ⟨(c6_header_resolution ["FUND", "Current Unit Price"]).1
      ⟨"FUND", by decide, by decide⟩,
   (c6_header_resolution ["FUND", "Current Unit Price"]).2.1
      ⟨"Current Unit Price", by decide, by decide⟩,
   (c6_header_resolution ["Ticker", "Value"]).2.2 (Or.inl (by decide))
      "2026-10-12" [] []⟩

/-! ## Claim C7 -/

/-- C7: a driver fault while reading or parsing a single data row (or
inside its secondary lookup) skips only that row: extraction still
returns the collected records of the remaining rows rather than the fatal
`none` (once the headers and both columns resolved), a faulting row
contributes nothing and leaves the cache untouched, and every
non-faulting row contributes exactly one record. -/
theorem c7_row_fault_skipped :
    (∀ (today : String) (headers : List String) (rows : List RowEnv)
        (cache : List (String × String)) (fi pj : Nat),
      colLoop 0 (none, none) headers = (some fi, some pj) →
        extract_fund_data today (.ok headers) rows cache
          = some (processRows today cache rows).1)
    ∧ (∀ (today : String) (cache : List (String × String)) (r : RowEnv)
        (rest : List RowEnv), rowFault cache r = true →
      (processRows today cache (r :: rest)).1 = (processRows today cache rest).1)
    ∧ (∀ (today : String) (cache : List (String × String)) (r : RowEnv)
        (rest : List RowEnv), rowFault cache r = false →
      ∃ rec, (processRows today cache (r :: rest)).1
        = rec :: (processRows today (processRow today cache r).2.2 rest).1) :=
  ⟨fun _ _ _ _ _ _ h => extract_some_of_cols h,
   fun _ _ _ rest h => processRows_fault_skip rest h,
   fun _ _ _ rest h => processRows_success_cons rest h⟩

/-- C7 witness: a run where the first row faults and the second parses:
the fault is skipped, extraction still succeeds, and the good row's
record is emitted. -/
theorem c7_row_fault_skipped_witness :
    extract_fund_data "2026-10-12" (.ok ["Fund", "Current Unit Price"])
        [⟨.error .webdriver, none, .ok (), none⟩,
         ⟨.ok ⟨"Fund A", "urlA", "1.25"⟩, none, .ok (), some "ABC123"⟩] []
      = some (processRows "2026-10-12" []
        [⟨.error .webdriver, none, .ok (), none⟩,
         ⟨.ok ⟨"Fund A", "urlA", "1.25"⟩, none, .ok (), some "ABC123"⟩]).1
    ∧ (processRows "2026-10-12" []
        ([⟨.error .webdriver, none, .ok (), none⟩,
          ⟨.ok ⟨"Fund A", "urlA", "1.25"⟩, none, .ok (), some "ABC123"⟩] : List RowEnv)).1
      = (processRows "2026-10-12" []
          [(⟨.ok ⟨"Fund A", "urlA", "1.25"⟩, none, .ok (), some "ABC123"⟩ : RowEnv)]).1
    ∧ ∃ rec, (processRows "2026-10-12" []
          [(⟨.ok ⟨"Fund A", "urlA", "1.25"⟩, none, .ok (), some "ABC123"⟩ : RowEnv)]).1
        = rec :: (processRows "2026-10-12"
            (processRow "2026-10-12" []
              (⟨.ok ⟨"Fund A", "urlA", "1.25"⟩, none, .ok (), some "ABC123"⟩ : RowEnv)).2.2
            []).1 :=
  ⟨c7_row_fault_skipped.1 "2026-10-12" ["Fund", "Current Unit Price"]
      [⟨.error .webdriver, none, .ok (), none⟩,
       ⟨.ok ⟨"Fund A", "urlA", "1.25"⟩, none, .ok (), some "ABC123"⟩] [] 0 1 (by decide),
   c7_row_fault_skipped.2.1 "2026-10-12" []
      ⟨.error .webdriver, none, .ok (), none⟩
      [⟨.ok ⟨"Fund A", "urlA", "1.25"⟩, none, .ok (), some "ABC123"⟩] (by decide),
   c7_row_fault_skipped.2.2 "2026-10-12" []
      ⟨.ok ⟨"Fund A", "urlA", "1.25"⟩, none, .ok (), some "ABC123"⟩ [] (by decide)⟩

/-! ## Claim C8 -/

/-- C8: a failed run leaves the ledger untouched: whenever the session
cannot be established (the cookie bypass reports no session and the
interactive login returns false), or the watchlist table is `None`, or
extraction returns the fatal `None`, `main` exits with failure, never
invokes the merge, and the CSV ledger file content is unchanged. -/
theorem c8_failed_run_preserves_ledger (env : RunEnv) (w : World)
    (h : (try_login_bypass w.cookieFile env.resumeMarker = .ok false
            ∧ env.loginOk = false)
       ∨ env.tableOk = false
       ∨ extract_fund_data (fmtYMD env.today) env.headersR env.rows env.codeCache
           = none) :
    (main env w).1.csvFile = w.csvFile ∧ (main env w).2.1 = false
      ∧ MEv.mergeCall ∉ (main env w).2.2 := by
  cases hbp : try_login_bypass w.cookieFile env.resumeMarker with
  | error e =>
    simp only [main, hbp]
    simp
  | ok b =>
    cases b with
    | true =>
      have hfail : env.tableOk = false
          ∨ extract_fund_data (fmtYMD env.today) env.headersR env.rows env.codeCache
              = none := by
        rcases h with ⟨h1, _⟩ | h2 | h3
        · rw [hbp] at h1; simp at h1
        · exact Or.inl h2
        · exact Or.inr h3
      simp only [main, hbp]
      rw [afterSession_fail hfail]
      simp
    | false =>
      cases hl : env.loginOk with
      | false =>
        simp only [main, hbp, hl, Bool.false_eq_true, if_false]
        simp
      | true =>
        have hfail : env.tableOk = false
            ∨ extract_fund_data (fmtYMD env.today) env.headersR env.rows env.codeCache
                = none := by
          rcases h with ⟨_, h1⟩ | h2 | h3
          · rw [hl] at h1; exact Bool.noConfusion h1
          · exact Or.inl h2
          · exact Or.inr h3
        simp only [main, hbp, hl, if_true]
        rw [afterSession_fail hfail]
        simp

/-- C8 witness: a run whose watchlist table never loads leaves the ledger
exactly as it was and reports failure without reaching the merge. -/
theorem c8_failed_run_preserves_ledger_witness :
    (main (RunEnv.mk true true false (.ok []) [] [] ⟨2026, 10, 12⟩ (some 30))
        (World.mk true (some ⟨defaultHeader, []⟩))).1.csvFile
      = (World.mk true (some ⟨defaultHeader, []⟩)).csvFile
    ∧ (main (RunEnv.mk true true false (.ok []) [] [] ⟨2026, 10, 12⟩ (some 30))
        (World.mk true (some ⟨defaultHeader, []⟩))).2.1 = false
    ∧ MEv.mergeCall ∉ (main (RunEnv.mk true true false (.ok []) [] []
        ⟨2026, 10, 12⟩ (some 30)) (World.mk true (some ⟨defaultHeader, []⟩))).2.2 :=
  c8_failed_run_preserves_ledger
    (RunEnv.mk true true false (.ok []) [] [] ⟨2026, 10, 12⟩ (some 30))
    (World.mk true (some ⟨defaultHeader, []⟩)) (Or.inr (Or.inl rfl))

/-! ## Claim C9 -/

/-- C9: a cache hit avoids the secondary lookup: any cache entry with a
non-empty code for a fund name produces a lookup hit, and for a row whose
cells parse and whose fund name hits the cache, the loop body emits the
record carrying the cached code while performing no tab event at all (no
tab opened, no detail page loaded) and leaving the cache unchanged. -/
theorem c9_cache_hit_no_tab :
    (∀ (cache : List (String × String)) (name c : String),
      (name, c) ∈ cache → c ≠ "" → (cacheLookup cache name).isSome = true)
    ∧ (∀ (today : String) (cache : List (String × String)) (r : RowEnv)
        (pc : ParsedCells) (c : String),
      r.cells = .ok pc → cacheLookup cache pc.fund_name = some c →
        processRow today cache r
          = (some ⟨some c, today, pc.fund_name, "AUD", pc.priceText⟩, [], cache)) := by
  refine ⟨fun cache name c hmem hne => cacheLookup_isSome_of_mem hmem hne, ?_⟩
  intro today cache r pc c hc hl
  have hcode : extract_apir_code cache pc.fund_name r.mainScan = (some c, cache) :=
    extract_apir_code_hit r.mainScan hl
  have htr2 : truthy (some c) = true := by
    simp [truthy, bne_iff_ne, cacheLookup_ne_empty hl]
  simp only [processRow, hc, hcode, htr2, if_true]

/-- C9 witness: the concrete cached fund is emitted with its cached code
and no tab events. -/
theorem c9_cache_hit_no_tab_witness :
    (cacheLookup [("Fund A", "ABC123")] "Fund A").isSome = true
    ∧ processRow "2026-10-12" [("Fund A", "ABC123")]
        ⟨.ok ⟨"Fund A", "urlA", "1.25"⟩, none, .ok (), none⟩
      = (some ⟨some "ABC123", "2026-10-12", "Fund A", "AUD", "1.25"⟩, [],
         [("Fund A", "ABC123")]) :=
  ⟨c9_cache_hit_no_tab.1 [("Fund A", "ABC123")] "Fund A" "ABC123"
      (by decide) (by decide),
   c9_cache_hit_no_tab.2 "2026-10-12" [("Fund A", "ABC123")]
      ⟨.ok ⟨"Fund A", "urlA", "1.25"⟩, none, .ok (), none⟩
      ⟨"Fund A", "urlA", "1.25"⟩ "ABC123" rfl rfl⟩

end InvestSmart
